import Mathlib

/-!
# Moltchain decision-loop policy: a shallow embedding

This file embeds the decision-loop policy of the `moltchain` repository in
Lean 4 and proves the specified properties about it.  JavaScript numeric
arithmetic on the small quantities involved is modelled by exact rational
arithmetic (`ℚ`); `Math.round` is Mathlib's `round` (both round halves
towards positive infinity); timestamps are integers (milliseconds since
epoch); objects with optional fields become structures with `Option`
fields; the flat-file ledger becomes an explicit in-memory value that is
threaded through the operations.
-/

namespace Moltchain

/-- Recommendation returned by the engagement analysis
(`'keep' | 'sunset' | 'promote'` in `engagement/tracker.ts`). -/
inductive Recommendation where
  | keep
  | sunset
  | promote
  deriving DecidableEq, Repr

/-- `calculateEngagementScore` from `engagement/tracker.ts`:
weights 0.4/0.3/0.3, expected daily rates 10 transfers / 5 holders /
3 mentions, `days = Math.max(daysSinceDeployment, 1)`, each signal
normalized by `rate * days` and clamped above by 1, the weighted sum
scaled by 100 and rounded with `Math.round`. -/
def calculateEngagementScore (transferCount uniqueHolders socialMentions
    daysSinceDeployment : ℚ) : ℤ :=
  let transferWeight : ℚ := 0.4
  let holderWeight : ℚ := 0.3
  let socialWeight : ℚ := 0.3
  let days : ℚ := max daysSinceDeployment 1
  let normalizedTransfers : ℚ := min (transferCount / (10 * days)) 1
  let normalizedHolders : ℚ := min (uniqueHolders / (5 * days)) 1
  let normalizedSocial : ℚ := min (socialMentions / (3 * days)) 1
  round ((normalizedTransfers * transferWeight +
          normalizedHolders * holderWeight +
          normalizedSocial * socialWeight) * 100)

/-- The recommendation computed from the score in `analyzeEngagement`
before the grace-period override: `>= 50 → promote`, `>= 20 → keep`,
otherwise `sunset`. -/
def baseRecommendation (engagementScore : ℤ) : Recommendation :=
  if engagementScore ≥ 50 then .promote
  else if engagementScore ≥ 20 then .keep
  else .sunset

/-- The recommendation returned by `analyzeEngagement`: the threshold
recommendation, with `sunset` overridden to `keep` when the deployment is
less than 24 hours old (`daysSinceDeployment < 1`). -/
def analyzeRecommendation (transferCount uniqueHolders socialMentions
    daysSinceDeployment : ℚ) : Recommendation :=
  let engagementScore := calculateEngagementScore transferCount uniqueHolders
    socialMentions daysSinceDeployment
  let recommendation := baseRecommendation engagementScore
  if daysSinceDeployment < 1 ∧ recommendation = .sunset then .keep
  else recommendation

/-- The spec's description of the score (§4.3 of the specification,
transcribed from its words): round the weighted sum
`100 × (0.4·min(t/(10·max(d,1)),1) + 0.3·min(h/(5·max(d,1)),1) +
0.3·min(m/(3·max(d,1)),1))`. -/
def specEngagementScore (transferCount uniqueHolders socialMentions
    daysSinceDeployment : ℚ) : ℤ :=
  round ((100 : ℚ) *
    (0.4 * min (transferCount / (10 * max daysSinceDeployment 1)) 1 +
     0.3 * min (uniqueHolders / (5 * max daysSinceDeployment 1)) 1 +
     0.3 * min (socialMentions / (3 * max daysSinceDeployment 1)) 1))

/-- `round` is monotone on `ℚ`. -/
lemma round_mono_q {x y : ℚ} (h : x ≤ y) : round x ≤ round y := by
  rw [round_eq, round_eq]
  exact Int.floor_le_floor (by linarith)

/-- `max d 1` is positive. -/
lemma max_one_pos (d : ℚ) : 0 < max d 1 :=
  lt_of_lt_of_le one_pos (le_max_right d 1)

/-- C1: the engagement score equals the spec's closed formula
`round(100 × (0.4·min(t/(10·max(d,1)),1) + 0.3·min(h/(5·max(d,1)),1) +
0.3·min(m/(3·max(d,1)),1)))` for all inputs, and the pre-override
recommendation is `promote` iff the score is ≥ 50, `keep` iff it lies in
[20, 50), and `sunset` iff it is < 20. -/
theorem engagement_score_formula_and_thresholds :
    (∀ t h m d : ℚ,
      calculateEngagementScore t h m d = specEngagementScore t h m d) ∧
    (∀ s : ℤ, (baseRecommendation s = .promote ↔ 50 ≤ s) ∧
      (baseRecommendation s = .keep ↔ 20 ≤ s ∧ s < 50) ∧
      (baseRecommendation s = .sunset ↔ s < 20)) := by
  constructor
  · intro t h m d
    unfold calculateEngagementScore specEngagementScore
    dsimp only
    congr 1
    ring
  · intro s
    unfold baseRecommendation
    refine ⟨?_, ?_, ?_⟩ <;> split_ifs with h1 h2 <;>
      simp_all <;> omega

/-- C2: for every input with `daysSinceDeployment < 1` the analysis never
returns `sunset`: the grace-period override forces `sunset` to `keep`. -/
theorem grace_period_never_sunset (t h m d : ℚ) (hd : d < 1) :
    analyzeRecommendation t h m d ≠ .sunset := by
  unfold analyzeRecommendation
  dsimp only
  split_ifs with hif
  · simp
  · intro hcontra
    exact hif ⟨hd, hcontra⟩

/-- Witness for C2 at a concrete input: zero activity half a day after
deployment is recommended `keep`, not `sunset`. -/
theorem grace_period_never_sunset_witness :
    analyzeRecommendation 0 0 0 (1/2) ≠ .sunset :=
  grace_period_never_sunset 0 0 0 (1/2) (by norm_num)

/-- The weighted, clamped, scaled sum inside the score is monotone in each
clamped numerator. -/
lemma score_le_score_of_le {t t' h h' m m' d : ℚ}
    (ht : t ≤ t') (hh : h ≤ h') (hm : m ≤ m') :
    calculateEngagementScore t h m d ≤ calculateEngagementScore t' h' m' d := by
  unfold calculateEngagementScore
  dsimp only
  have hd : 0 < max d 1 := max_one_pos d
  apply round_mono_q
  have h10 : (0:ℚ) < 10 * max d 1 := by linarith
  have h5 : (0:ℚ) < 5 * max d 1 := by linarith
  have h3 : (0:ℚ) < 3 * max d 1 := by linarith
  have l1 : t / (10 * max d 1) ≤ t' / (10 * max d 1) :=
    div_le_div_of_nonneg_right ht h10.le |>.trans_eq rfl
  have l2 : h / (5 * max d 1) ≤ h' / (5 * max d 1) :=
    div_le_div_of_nonneg_right hh h5.le |>.trans_eq rfl
  have l3 : m / (3 * max d 1) ≤ m' / (3 * max d 1) :=
    div_le_div_of_nonneg_right hm h3.le |>.trans_eq rfl
  have m1 := min_le_min l1 (le_refl (1:ℚ))
  have m2 := min_le_min l2 (le_refl (1:ℚ))
  have m3 := min_le_min l3 (le_refl (1:ℚ))
  nlinarith [m1, m2, m3]

/-- C7: the engagement score is monotonically non-decreasing in each
raw-count input separately, the other arguments held fixed. -/
theorem engagement_score_monotone :
    (∀ a a' h m d : ℚ, 0 ≤ a → a ≤ a' →
      calculateEngagementScore a h m d ≤ calculateEngagementScore a' h m d) ∧
    (∀ t a a' m d : ℚ, 0 ≤ a → a ≤ a' →
      calculateEngagementScore t a m d ≤ calculateEngagementScore t a' m d) ∧
    (∀ t h a a' d : ℚ, 0 ≤ a → a ≤ a' →
      calculateEngagementScore t h a d ≤ calculateEngagementScore t h a' d) :=
  ⟨fun _ _ _ _ _ _ haa => score_le_score_of_le haa le_rfl le_rfl,
   fun _ _ _ _ _ _ haa => score_le_score_of_le le_rfl haa le_rfl,
   fun _ _ _ _ _ _ haa => score_le_score_of_le le_rfl le_rfl haa⟩

/-- Witness for C7 at concrete inputs: raising each raw count separately
does not lower the score. -/
theorem engagement_score_monotone_witness :
    ((0:ℚ) ≤ 3 ∧ (3:ℚ) ≤ 25 ∧
      calculateEngagementScore 3 2 1 1 ≤ calculateEngagementScore 25 2 1 1) ∧
    (calculateEngagementScore 3 2 1 1 ≤ calculateEngagementScore 3 9 1 1) ∧
    (calculateEngagementScore 3 2 1 1 ≤ calculateEngagementScore 3 2 8 1) :=
  ⟨⟨by norm_num, by norm_num,
    engagement_score_monotone.1 3 25 2 1 1 (by norm_num) (by norm_num)⟩,
   engagement_score_monotone.2.1 3 2 9 1 1 (by norm_num) (by norm_num),
   engagement_score_monotone.2.2 3 2 1 8 1 (by norm_num) (by norm_num)⟩

/-- C8: the score is total and well-behaved: an integer in `[0, 100]` for
all non-negative counts and any `daysSinceDeployment`; exactly `0` for
zero activity at any age; and exactly `100` once every raw count reaches
its clamping threshold, however large the counts become beyond it. -/
theorem engagement_score_total_and_bounded :
    (∀ t h m d : ℚ, 0 ≤ t → 0 ≤ h → 0 ≤ m →
      0 ≤ calculateEngagementScore t h m d ∧
      calculateEngagementScore t h m d ≤ 100) ∧
    (∀ d : ℚ, calculateEngagementScore 0 0 0 d = 0) ∧
    (∀ t h m d : ℚ, 10 * max d 1 ≤ t → 5 * max d 1 ≤ h → 3 * max d 1 ≤ m →
      calculateEngagementScore t h m d = 100) := by
  refine ⟨?_, ?_, ?_⟩
  · intro t h m d ht hh hm
    unfold calculateEngagementScore
    dsimp only
    have hd : 0 < max d 1 := max_one_pos d
    have n1 : (0:ℚ) ≤ min (t / (10 * max d 1)) 1 :=
      le_min (div_nonneg ht (by linarith)) (by norm_num)
    have n2 : (0:ℚ) ≤ min (h / (5 * max d 1)) 1 :=
      le_min (div_nonneg hh (by linarith)) (by norm_num)
    have n3 : (0:ℚ) ≤ min (m / (3 * max d 1)) 1 :=
      le_min (div_nonneg hm (by linarith)) (by norm_num)
    have u1 : min (t / (10 * max d 1)) 1 ≤ 1 := min_le_right _ _
    have u2 : min (h / (5 * max d 1)) 1 ≤ 1 := min_le_right _ _
    have u3 : min (m / (3 * max d 1)) 1 ≤ 1 := min_le_right _ _
    constructor
    · have h0 : (0:ℚ) ≤ (min (t / (10 * max d 1)) 1 * 0.4 +
          min (h / (5 * max d 1)) 1 * 0.3 +
          min (m / (3 * max d 1)) 1 * 0.3) * 100 := by nlinarith
      simpa using round_mono_q h0
    · have h100 : (min (t / (10 * max d 1)) 1 * 0.4 +
          min (h / (5 * max d 1)) 1 * 0.3 +
          min (m / (3 * max d 1)) 1 * 0.3) * 100 ≤ (100:ℚ) := by nlinarith
      simpa using round_mono_q h100
  · intro d
    unfold calculateEngagementScore
    have hd : 0 < max d 1 := max_one_pos d
    have e1 : (0:ℚ) / (10 * max d 1) = 0 := zero_div _
    have e2 : (0:ℚ) / (5 * max d 1) = 0 := zero_div _
    have e3 : (0:ℚ) / (3 * max d 1) = 0 := zero_div _
    dsimp only
    rw [e1, e2, e3]
    norm_num
  · intro t h m d h1 h2 h3
    unfold calculateEngagementScore
    dsimp only
    have hd : 0 < max d 1 := max_one_pos d
    have c1 : min (t / (10 * max d 1)) 1 = 1 :=
      min_eq_right ((one_le_div (by linarith)).mpr (by linarith))
    have c2 : min (h / (5 * max d 1)) 1 = 1 :=
      min_eq_right ((one_le_div (by linarith)).mpr (by linarith))
    have c3 : min (m / (3 * max d 1)) 1 = 1 :=
      min_eq_right ((one_le_div (by linarith)).mpr (by linarith))
    rw [c1, c2, c3]
    norm_num

/-- Witness for C8 at concrete inputs: the score of (7, 2, 1) one day in
lies in `[0, 100]`, zero activity scores 0, and counts at the daily
expectations (10, 5, 3) on day one score exactly 100. -/
theorem engagement_score_total_and_bounded_witness :
    (0 ≤ calculateEngagementScore 7 2 1 1 ∧
      calculateEngagementScore 7 2 1 1 ≤ 100) ∧
    calculateEngagementScore 0 0 0 5 = 0 ∧
    calculateEngagementScore 10 5 3 1 = 100 :=
  ⟨engagement_score_total_and_bounded.1 7 2 1 1 (by norm_num) (by norm_num)
      (by norm_num),
   engagement_score_total_and_bounded.2.1 5,
   engagement_score_total_and_bounded.2.2 10 5 3 1 (by norm_num) (by norm_num)
      (by norm_num)⟩

/-- Contract archetypes selectable by the daemon
(`'erc20' | 'erc1155' | 'vote' | 'registry'` in `daemon/agent.ts`). -/
inductive ContractType where
  | erc20
  | erc1155
  | vote
  | registry
  deriving DecidableEq, Repr

/-- Does the second character list start with the first? -/
def startsWithList : List Char → List Char → Bool
  | [], _ => true
  | _ :: _, [] => false
  | a :: as, b :: bs => a == b && startsWithList as bs

/-- Does the second character list contain the first as a contiguous
sublist? -/
def containsList (needle : List Char) : List Char → Bool
  | [] => startsWithList needle []
  | b :: bs => startsWithList needle (b :: bs) || containsList needle bs

/-- JavaScript `s.includes(sub)`: `sub` occurs as a contiguous substring
of `s`. -/
def includesStr (s sub : String) : Bool :=
  containsList sub.toList s.toList

/-- JavaScript `s.toLowerCase()` restricted to the ASCII range (all the
keywords involved are ASCII): lower-case every character. -/
def toLowerString (s : String) : String :=
  String.mk (s.toList.map Char.toLower)

/-- First keyword group of `selectContractType`: vote contracts. -/
def hasVoteKeyword (lowerNarrative : String) : Bool :=
  includesStr lowerNarrative "vote" || includesStr lowerNarrative "decide" ||
    includesStr lowerNarrative "poll"

/-- Second keyword group of `selectContractType`: registries. -/
def hasRegistryKeyword (lowerNarrative : String) : Bool :=
  includesStr lowerNarrative "registry" || includesStr lowerNarrative "list" ||
    includesStr lowerNarrative "catalog"

/-- Third keyword group of `selectContractType`: NFT-like collections. -/
def hasNftKeyword (lowerNarrative : String) : Bool :=
  includesStr lowerNarrative "nft" || includesStr lowerNarrative "collection" ||
    includesStr lowerNarrative "badge"

/-- `selectContractType` from `daemon/agent.ts`: lower-case the narrative,
then test the three keyword groups in priority order, defaulting to the
fungible token. -/
def selectContractType (narrative : String) : ContractType :=
  let lowerNarrative := toLowerString narrative
  if hasVoteKeyword lowerNarrative then .vote
  else if hasRegistryKeyword lowerNarrative then .registry
  else if hasNftKeyword lowerNarrative then .erc1155
  else .erc20

/-- C4: archetype selection is a total function decided by
case-insensitive keyword groups in fixed priority order (vote before
registry before NFT before the ERC20 default), and it maps the four
sample narratives as specified. -/
theorem selectContractType_priority_and_samples :
    (∀ n : String,
      (hasVoteKeyword (toLowerString n) = true →
        selectContractType n = .vote) ∧
      (hasVoteKeyword (toLowerString n) = false →
        hasRegistryKeyword (toLowerString n) = true →
        selectContractType n = .registry) ∧
      (hasVoteKeyword (toLowerString n) = false →
        hasRegistryKeyword (toLowerString n) = false →
        hasNftKeyword (toLowerString n) = true →
        selectContractType n = .erc1155) ∧
      (hasVoteKeyword (toLowerString n) = false →
        hasRegistryKeyword (toLowerString n) = false →
        hasNftKeyword (toLowerString n) = false →
        selectContractType n = .erc20)) ∧
    selectContractType "Let\x27s vote on this" = .vote ∧
    selectContractType "new NFT collection" = .erc1155 ∧
    selectContractType "community registry list" = .registry ∧
    selectContractType "moon rocket meme" = .erc20 := by
  refine ⟨?_, by decide, by decide, by decide, by decide⟩
  intro n
  refine ⟨?_, ?_, ?_, ?_⟩ <;>
    · intros
      unfold selectContractType
      dsimp only
      split_ifs <;> simp_all

/-- Witness for C4: the priority clauses applied at concrete narratives.
The registry clause fires on a narrative containing `"list"` only because
no vote keyword occurs. -/
theorem selectContractType_priority_witness :
    selectContractType "big poll" = .vote ∧
    selectContractType "a catalog" = .registry ∧
    selectContractType "rare badge" = .erc1155 ∧
    selectContractType "plain hype" = .erc20 :=
  ⟨(selectContractType_priority_and_samples.1 "big poll").1 (by decide),
   (selectContractType_priority_and_samples.1 "a catalog").2.1 (by decide)
     (by decide),
   (selectContractType_priority_and_samples.1 "rare badge").2.2.1 (by decide)
     (by decide) (by decide),
   (selectContractType_priority_and_samples.1 "plain hype").2.2.2 (by decide)
     (by decide) (by decide)⟩

/-- `status` values of a deployment record
(`'active' | 'sunset'` in `memory/deployments.ts`). -/
inductive DeployStatus where
  | active
  | sunset
  deriving DecidableEq, Repr

/-- The optional cached engagement sub-object of a record. -/
structure EngagementCache where
  transactions : ℕ
  uniqueUsers : ℕ
  lastActivity : ℤ
  deriving DecidableEq, Repr

/-- `DeploymentRecord` from `memory/deployments.ts`.  Optional TypeScript
fields become `Option` fields (`none` models `undefined`).  The opaque
free-form `metadata` bag is never read by any policy operation and is
omitted. -/
structure DeploymentRecord where
  name : String
  symbol : Option String := none
  address : String
  transactionHash : Option String := none
  txHash : Option String := none
  explorerUrl : Option String := none
  txExplorerUrl : Option String := none
  chainId : String
  timestamp : ℤ
  reason : String
  status : Option DeployStatus := none
  type : Option String := none
  engagement : Option EngagementCache := none
  sunset : Option Bool := none
  deriving DecidableEq, Repr

/-- `DeploymentMemory` from `memory/deployments.ts`: the whole ledger. -/
structure DeploymentMemory where
  version : ℕ
  lastUpdated : ℤ
  deployments : List DeploymentRecord
  deriving DecidableEq, Repr

/-- `saveMemory`: refresh `lastUpdated` and write the ledger wholesale.
The durable store always equals the last saved value, so persistence is
the identity on the saved ledger. -/
def saveMemory (memory : DeploymentMemory) (now : ℤ) : DeploymentMemory :=
  { memory with lastUpdated := now }

/-- `saveDeployment`: load, `unshift` the new record to the front
(newest first), save. -/
def saveDeployment (deployment : DeploymentRecord)
    (memory : DeploymentMemory) (now : ℤ) : DeploymentMemory :=
  saveMemory { memory with deployments := deployment :: memory.deployments } now

/-- JavaScript `x || dflt` on an optional string (`undefined` and the
empty string are falsy). -/
def jsOrDefault (s : Option String) (dflt : String) : String :=
  match s with
  | none => dflt
  | some r => if r = "" then dflt else r

/-- The record built in step 7/8 of `deployContract`
(`deployer/deployer.ts`): the spread of the `DeployResult` plus `name`
and `reason`.  No `status` and no legacy `sunset` field is written. -/
def deployResultRecord (name address transactionHash explorerUrl
    txExplorerUrl chainId : String) (timestamp : ℤ)
    (reason : Option String) : DeploymentRecord :=
  { name := name
    address := address
    transactionHash := some transactionHash
    explorerUrl := some explorerUrl
    txExplorerUrl := some txExplorerUrl
    chainId := chainId
    timestamp := timestamp
    reason := jsOrDefault reason "Manual deployment" }

/-- Result of the gate check `canDeploy` (`{ allowed, reason }`). -/
structure CanDeployResult where
  allowed : Bool
  reason : String
  deriving DecidableEq, Repr

/-- `parseEther('0.005')`: the minimum operating balance in wei. -/
def minDeployBalanceWei : ℕ := 5000000000000000

/-- `wallet.hasSufficientBalance('0.005')`: balance ≥ required. -/
def hasSufficientBalance (balanceWei : ℕ) : Bool :=
  decide (balanceWei ≥ minDeployBalanceWei)

/-- `canDeploy` from the signal-detection module: funds check first, then
the one-hour rate limit against the newest ledger record; an empty ledger
passes the rate limit. -/
def canDeploy (balanceWei : ℕ) (memory : DeploymentMemory)
    (now : ℤ) : CanDeployResult :=
  if !hasSufficientBalance balanceWei then
    { allowed := false
      reason := "Insufficient wallet balance (need at least 0.005 ETH)" }
  else
    match memory.deployments.head? with
    | none => { allowed := true, reason := "Ready to deploy" }
    | some lastDeployment =>
      let hourAgo : ℤ := now - 60 * 60 * 1000
      if lastDeployment.timestamp > hourAgo then
        let minutesAgo : ℤ := Int.fdiv (now - lastDeployment.timestamp) 60000
        { allowed := false
          reason := s!"Rate limited: Last deployment was {minutesAgo} minutes ago (wait 60 min)" }
      else
        { allowed := true, reason := "Ready to deploy" }

/-- A list starts with itself followed by anything. -/
lemma startsWithList_append_self (l t : List Char) :
    startsWithList l (l ++ t) = true := by
  induction l with
  | nil => rfl
  | cons c cs ih => simp [startsWithList, ih]

/-- A contiguous occurrence preceded and followed by arbitrary material
is found by the substring search. -/
lemma containsList_append_self (n b : List Char) :
    ∀ a : List Char, containsList n (a ++ (n ++ b)) = true := by
  intro a
  induction a with
  | nil =>
    simp only [List.nil_append]
    cases hn : n ++ b with
    | nil =>
      obtain ⟨hn1, hn2⟩ := List.append_eq_nil.mp hn
      subst hn1
      subst hn2
      rfl
    | cons c cs =>
      have h1 : containsList n (c :: cs) =
          (startsWithList n (c :: cs) || containsList n cs) := rfl
      have h2 : startsWithList n (c :: cs) = true := by
        rw [← hn]
        exact startsWithList_append_self n b
      rw [h1, h2]
      simp
  | cons x xs ih =>
    simp only [List.cons_append]
    have h1 : containsList n (x :: (xs ++ (n ++ b))) =
        (startsWithList n (x :: (xs ++ (n ++ b))) ||
          containsList n (xs ++ (n ++ b))) := rfl
    rw [h1, ih]
    simp

/-- `includesStr` finds a substring occurring between two strings. -/
lemma includesStr_parts (a sub b : String) :
    includesStr (a ++ sub ++ b) sub = true := by
  unfold includesStr
  have h : (a ++ sub ++ b).toList = a.toList ++ (sub.toList ++ b.toList) := by
    simp [String.toList, List.append_assoc]
  rw [h]
  exact containsList_append_self _ _ _

/-- C3: the gate check fails on insufficient balance before anything
else; with sufficient balance it rate-limits on any newest record whose
timestamp is within the last 60 minutes, with a reason reporting the
elapsed minutes (in particular "30 minutes" for a 30-minute-old record);
and it allows a deployment with a newest record 90 minutes old or an
empty ledger. -/
theorem canDeploy_gate_behaviour :
    (∀ (b : ℕ) (memory : DeploymentMemory) (now : ℤ),
      b < minDeployBalanceWei →
      canDeploy b memory now =
        { allowed := false
          reason := "Insufficient wallet balance (need at least 0.005 ETH)" }) ∧
    (∀ (b : ℕ) (r : DeploymentRecord) (rest : List DeploymentRecord)
      (v : ℕ) (lu now : ℤ),
      minDeployBalanceWei ≤ b → r.timestamp > now - 60 * 60 * 1000 →
      canDeploy b ⟨v, lu, r :: rest⟩ now =
        { allowed := false
          reason := "Rate limited: Last deployment was " ++
            toString (Int.fdiv (now - r.timestamp) 60000) ++
            " minutes ago (wait 60 min)" } ∧
      includesStr
        ("Rate limited: Last deployment was " ++
          toString (Int.fdiv (now - r.timestamp) 60000) ++
          " minutes ago (wait 60 min)")
        (toString (Int.fdiv (now - r.timestamp) 60000) ++ " minutes") =
        true) ∧
    (∀ (b : ℕ) (r : DeploymentRecord) (rest : List DeploymentRecord)
      (v : ℕ) (lu now : ℤ),
      minDeployBalanceWei ≤ b → r.timestamp = now - 30 * 60000 →
      canDeploy b ⟨v, lu, r :: rest⟩ now =
        { allowed := false
          reason := "Rate limited: Last deployment was 30 minutes ago (wait 60 min)" } ∧
      includesStr "Rate limited: Last deployment was 30 minutes ago (wait 60 min)"
        "30 minutes" = true) ∧
    (∀ (b : ℕ) (r : DeploymentRecord) (rest : List DeploymentRecord)
      (v : ℕ) (lu now : ℤ),
      minDeployBalanceWei ≤ b → r.timestamp = now - 90 * 60000 →
      canDeploy b ⟨v, lu, r :: rest⟩ now =
        { allowed := true, reason := "Ready to deploy" }) ∧
    (∀ (b v : ℕ) (lu now : ℤ), minDeployBalanceWei ≤ b →
      canDeploy b ⟨v, lu, []⟩ now =
        { allowed := true, reason := "Ready to deploy" }) := by
  refine ⟨?_, ?_, ?_, ?_, ?_⟩
  · intro b memory now hb
    have hfunds : hasSufficientBalance b = false :=
      decide_eq_false (not_le.mpr hb)
    simp [canDeploy, hfunds]
  · intro b r rest v lu now hb hlim
    have hfunds : hasSufficientBalance b = true := decide_eq_true hb
    constructor
    · simp only [canDeploy, hfunds, Bool.not_true, Bool.false_eq_true,
        if_false, List.head?_cons, if_pos hlim]
      rfl
    · have hsplit :
          "Rate limited: Last deployment was " ++
            toString (Int.fdiv (now - r.timestamp) 60000) ++
            " minutes ago (wait 60 min)" =
          "Rate limited: Last deployment was " ++
            (toString (Int.fdiv (now - r.timestamp) 60000) ++ " minutes") ++
            " ago (wait 60 min)" := by
        rw [show (" minutes ago (wait 60 min)" : String) =
          " minutes" ++ " ago (wait 60 min)" from by decide]
        simp only [String.append_assoc]
      rw [hsplit]
      exact includesStr_parts _ _ _
  · intro b r rest v lu now hb ht
    have hfunds : hasSufficientBalance b = true := decide_eq_true hb
    have hdiff : now - r.timestamp = 1800000 := by omega
    have hlim : r.timestamp > now - 60 * 60 * 1000 := by omega
    refine ⟨?_, by decide⟩
    simp only [canDeploy, hfunds, Bool.not_true, Bool.false_eq_true,
      if_false, List.head?_cons, if_pos hlim, hdiff]
    rfl
  · intro b r rest v lu now hb ht
    have hfunds : hasSufficientBalance b = true := decide_eq_true hb
    have hlim : ¬(r.timestamp > now - 60 * 60 * 1000) := by omega
    simp only [canDeploy, hfunds, Bool.not_true, Bool.false_eq_true,
      if_false, List.head?_cons, if_neg hlim]
  · intro b v lu now hb
    have hfunds : hasSufficientBalance b = true := decide_eq_true hb
    simp [canDeploy, hfunds]

/-- Witness for C3 at concrete inputs: the gate refuses on a ledger
whose newest record is 45 minutes old, reporting "45 minutes", and on
one 30 minutes old, reporting "30 minutes"; with a newest record 90
minutes old, or an empty ledger, it allows. -/
theorem canDeploy_gate_behaviour_witness :
    canDeploy 0 ⟨1, 0, []⟩ 7200000 =
      { allowed := false
        reason := "Insufficient wallet balance (need at least 0.005 ETH)" } ∧
    canDeploy 5000000000000000
      ⟨1, 0, [{ name := "n", address := "0xa", chainId := "base",
                timestamp := 7200000 - 45 * 60000, reason := "r" }]⟩
      7200000 =
      { allowed := false
        reason := "Rate limited: Last deployment was 45 minutes ago (wait 60 min)" } ∧
    includesStr "Rate limited: Last deployment was 45 minutes ago (wait 60 min)"
      "45 minutes" = true ∧
    canDeploy 5000000000000000
      ⟨1, 0, [{ name := "n", address := "0xa", chainId := "base",
                timestamp := 7200000 - 30 * 60000, reason := "r" }]⟩
      7200000 =
      { allowed := false
        reason := "Rate limited: Last deployment was 30 minutes ago (wait 60 min)" } ∧
    canDeploy 5000000000000000
      ⟨1, 0, [{ name := "n", address := "0xa", chainId := "base",
                timestamp := 7200000 - 90 * 60000, reason := "r" }]⟩
      7200000 =
      { allowed := true, reason := "Ready to deploy" } ∧
    canDeploy 5000000000000000 ⟨1, 0, []⟩ 7200000 =
      { allowed := true, reason := "Ready to deploy" } :=
  ⟨canDeploy_gate_behaviour.1 0 ⟨1, 0, []⟩ 7200000 (by norm_num [minDeployBalanceWei]),
   (canDeploy_gate_behaviour.2.1 5000000000000000
     { name := "n", address := "0xa", chainId := "base",
       timestamp := 7200000 - 45 * 60000, reason := "r" } [] 1 0 7200000
     (le_refl _) (by decide)).1.trans (by decide),
   by decide,
   (canDeploy_gate_behaviour.2.2.1 5000000000000000 _ [] 1 0 7200000
     (le_refl _) rfl).1,
   canDeploy_gate_behaviour.2.2.2.1 5000000000000000 _ [] 1 0 7200000
     (le_refl _) rfl,
   canDeploy_gate_behaviour.2.2.2.2 5000000000000000 1 0 7200000 (le_refl _)⟩

/-- `EngagementMetrics` from `engagement/tracker.ts`.  Note the interface
carries the transfer and holder counts and the score, but no
social-mention count. -/
structure EngagementMetrics where
  address : String
  name : String
  transferCount : ℕ
  uniqueHolders : ℕ
  engagementScore : ℤ
  isPerforming : Bool
  recommendation : Recommendation
  checkedAt : ℤ
  deriving DecidableEq, Repr

/-- The pure core of `analyzeEngagement`: given the externally fetched
raw counts and the current time, compute days since deployment, the
score, the threshold recommendation with its grace-period override, and
assemble the metrics record. -/
def analyzeEngagementPure (deployment : DeploymentRecord)
    (transferCount uniqueHolders socialMentions : ℕ)
    (now : ℤ) : EngagementMetrics :=
  let daysSinceDeployment : ℚ :=
    ((now - deployment.timestamp : ℤ) : ℚ) / (1000 * 60 * 60 * 24)
  let engagementScore := calculateEngagementScore (transferCount : ℚ)
    (uniqueHolders : ℚ) (socialMentions : ℚ) daysSinceDeployment
  let recommendation₀ := baseRecommendation engagementScore
  let isPerforming : Bool := decide (engagementScore ≥ 20)
  let recommendation :=
    if daysSinceDeployment < 1 ∧ recommendation₀ = .sunset then .keep
    else recommendation₀
  { address := deployment.address
    name := deployment.name
    transferCount := transferCount
    uniqueHolders := uniqueHolders
    engagementScore := engagementScore
    isPerforming := isPerforming
    recommendation := recommendation
    checkedAt := now }

/-- The records `analyzeAllDeployments` selects for analysis: the filter
`d.status === 'active'` over the loaded ledger. -/
def activeForAnalysis (memory : DeploymentMemory) : List DeploymentRecord :=
  memory.deployments.filter (fun d => decide (d.status = some .active))

/-- C5 fails on the code: `analyzeAllDeployments` keeps only records
whose `status` field is literally `'active'`, but `deployContract` saves
records with no `status` field at all, so the record created right after
a successful deployment is never selected on the next engagement check
for any ledger state. -/
theorem fresh_deployment_not_analyzed (memory : DeploymentMemory)
    (name address transactionHash explorerUrl txExplorerUrl
      chainId : String) (timestamp now : ℤ) (reason : Option String) :
    (saveDeployment (deployResultRecord name address transactionHash
        explorerUrl txExplorerUrl chainId timestamp reason)
      memory now).deployments.head? =
      some (deployResultRecord name address transactionHash explorerUrl
        txExplorerUrl chainId timestamp reason) ∧
    deployResultRecord name address transactionHash explorerUrl
        txExplorerUrl chainId timestamp reason ∉
      activeForAnalysis (saveDeployment (deployResultRecord name address
        transactionHash explorerUrl txExplorerUrl chainId timestamp
        reason) memory now) := by
  constructor
  · rfl
  · intro hmem
    have := (List.mem_filter.mp hmem).2
    simp [deployResultRecord] at this

/-- `SunsetResult` from `sunset/automation.ts`. -/
structure SunsetResult where
  address : String
  name : String
  reason : String
  sunsetAt : ℤ
  announced : Bool
  deriving DecidableEq, Repr

/-- The reason string built by `processSunset`: it interpolates the
transfer count, the holder count and the score — and nothing else. -/
def sunsetReason (metrics : EngagementMetrics) : String :=
  let t := metrics.transferCount
  let h := metrics.uniqueHolders
  let s := metrics.engagementScore
  s!"Low engagement: {t} transfers, {h} holders, score: {s}/100"

/-- `findIndex` followed by an index assignment: rewrite the first list
element satisfying the predicate, leaving everything else unchanged. -/
def updateFirst (p : DeploymentRecord → Bool)
    (f : DeploymentRecord → DeploymentRecord) :
    List DeploymentRecord → List DeploymentRecord
  | [] => []
  | d :: ds => if p d then f d :: ds else d :: updateFirst p f ds

/-- `processSunset` from `sunset/automation.ts`: build the reason, mark
the matching ledger record `status = 'sunset'` with that reason and save
(step 1), then attempt the Farcaster announcement (step 2, outcome
`announceOk`), and return the result record.  The saved ledger is
computed before and independently of the announce outcome; a caught
announce failure only makes `announced = false`. -/
def processSunset (memory : DeploymentMemory)
    (deployment : DeploymentRecord) (metrics : EngagementMetrics)
    (announceOk : Bool) (now : ℤ) : DeploymentMemory × SunsetResult :=
  let reason := sunsetReason metrics
  let memory' :=
    if memory.deployments.any (fun d => d.address == deployment.address) then
      saveMemory { memory with
        deployments := updateFirst (fun d => d.address == deployment.address)
          (fun d => { d with status := some .sunset, reason := reason })
          memory.deployments } now
    else memory
  (memory',
   { address := deployment.address
     name := deployment.name
     reason := reason
     sunsetAt := now
     announced := announceOk })

/-- If some list element satisfies `p`, the rewritten first match is a
member of `updateFirst p f`. -/
lemma updateFirst_mem_of_any (p : DeploymentRecord → Bool)
    (f : DeploymentRecord → DeploymentRecord) :
    ∀ l : List DeploymentRecord, l.any p = true →
      ∃ d₀, p d₀ = true ∧ f d₀ ∈ updateFirst p f l := by
  intro l hany
  induction l with
  | nil => simp at hany
  | cons d ds ih =>
    by_cases hd : p d
    · exact ⟨d, hd, by simp [updateFirst, hd]⟩
    · have : ds.any p = true := by
        simp only [List.any_cons, Bool.or_eq_true] at hany
        exact hany.resolve_left (by simp [hd])
      obtain ⟨d₀, hp, hmem⟩ := ih this
      exact ⟨d₀, hp, by simp [updateFirst, hd, hmem]⟩

/-- C6 (amended): `processSunset` durably marks the matching record
`status = 'sunset'` with a reason embedding the transfer count, the
holder count and the score (the metrics record carries no social-mention
count, so the reason cannot and does not embed it); the persisted ledger
is the same whether or not the announce call succeeds; and the returned
result carries the address, name, reason and timestamp, with
`announced = false` exactly when the announce call failed. -/
theorem processSunset_durable_and_reported (memory : DeploymentMemory)
    (deployment : DeploymentRecord) (metrics : EngagementMetrics)
    (announceOk : Bool) (now : ℤ)
    (hfound : memory.deployments.any
      (fun d => d.address == deployment.address) = true) :
    (∃ d ∈ (processSunset memory deployment metrics announceOk
        now).1.deployments,
      d.address = deployment.address ∧ d.status = some .sunset ∧
      d.reason = sunsetReason metrics) ∧
    (processSunset memory deployment metrics announceOk now).1 =
      (processSunset memory deployment metrics (!announceOk) now).1 ∧
    (processSunset memory deployment metrics announceOk now).2 =
      { address := deployment.address
        name := deployment.name
        reason := sunsetReason metrics
        sunsetAt := now
        announced := announceOk } ∧
    sunsetReason metrics =
      "Low engagement: " ++ toString metrics.transferCount ++
        " transfers, " ++ toString metrics.uniqueHolders ++
        " holders, score: " ++ toString metrics.engagementScore ++
        "/100" ∧
    ((processSunset memory deployment metrics announceOk
        now).2.announced = false ↔ announceOk = false) := by
  refine ⟨?_, rfl, rfl, rfl, Iff.rfl⟩
  obtain ⟨d₀, hp, hmem⟩ := updateFirst_mem_of_any
    (fun d => d.address == deployment.address)
    (fun d => { d with
      status := some .sunset
      reason := sunsetReason metrics })
    memory.deployments hfound
  refine ⟨{ d₀ with
    status := some .sunset
    reason := sunsetReason metrics }, ?_, ?_, rfl, rfl⟩
  · simp only [processSunset, hfound, if_true, saveMemory]
    exact hmem
  · simpa using hp

/-- Concrete record used to exercise C6: a deployment thirty days old. -/
def sunsetCexRecord : DeploymentRecord :=
  { name := "tok", address := "0xabc", chainId := "base",
    timestamp := 0, reason := "init" }

/-- Concrete metrics produced by the engagement analysis for
`sunsetCexRecord` thirty days in (`now = 2592000000` ms), with 0
transfers, 0 holders and 9 social mentions. -/
def sunsetCexMetrics : EngagementMetrics :=
  analyzeEngagementPure sunsetCexRecord 0 0 9 2592000000

/-- Witness for C6 at the concrete input: with the announce call failing
(`announceOk = false`), the reloaded ledger still shows the record with
`status = 'sunset'`, and the result reports `announced = false`. -/
theorem processSunset_durable_and_reported_witness :
    (∃ d ∈ (processSunset ⟨1, 0, [sunsetCexRecord]⟩ sunsetCexRecord
        sunsetCexMetrics false 2592000000).1.deployments,
      d.address = sunsetCexRecord.address ∧ d.status = some .sunset ∧
      d.reason = sunsetReason sunsetCexMetrics) ∧
    ((processSunset ⟨1, 0, [sunsetCexRecord]⟩ sunsetCexRecord
        sunsetCexMetrics false 2592000000).2.announced = false ↔
      (false : Bool) = false) := by
  have h := processSunset_durable_and_reported ⟨1, 0, [sunsetCexRecord]⟩
    sunsetCexRecord sunsetCexMetrics false 2592000000 (by decide)
  exact ⟨h.1, h.2.2.2.2⟩

/-- The concrete metrics evaluate to score 3 with recommendation
`sunset`: 9 social mentions against an expected 90 is a normalized 0.1,
weighted 0.3 and scaled to 3. -/
lemma sunsetCexMetrics_eval :
    sunsetCexMetrics =
      { address := "0xabc", name := "tok", transferCount := 0,
        uniqueHolders := 0, engagementScore := 3, isPerforming := false,
        recommendation := .sunset, checkedAt := 2592000000 } := by
  have hscore : calculateEngagementScore 0 0 9 30 = 3 := by
    unfold calculateEngagementScore
    dsimp only
    rw [show max (30:ℚ) 1 = 30 from max_eq_left (by norm_num)]
    rw [show ((0:ℚ) / (10 * 30)) = 0 from by norm_num]
    rw [show ((0:ℚ) / (5 * 30)) = 0 from by norm_num]
    rw [show ((9:ℚ) / (3 * 30)) = 1/10 from by norm_num]
    rw [show min (0:ℚ) 1 = 0 from by norm_num]
    rw [show min ((1:ℚ)/10) 1 = 1/10 from by norm_num]
    rw [show ((0 * 0.4 + 0 * 0.3 + (1:ℚ)/10 * 0.3) * 100 : ℚ) = 3 from
      by norm_num]
    simp
  unfold sunsetCexMetrics analyzeEngagementPure
  dsimp only
  rw [show (((2592000000 : ℤ) - sunsetCexRecord.timestamp : ℤ) : ℚ) /
      (1000 * 60 * 60 * 24) = 30 from by norm_num [sunsetCexRecord]]
  rw [show (((0:ℕ)) : ℚ) = 0 from by norm_num]
  rw [show (((9:ℕ)) : ℚ) = 9 from by norm_num]
  rw [hscore]
  norm_num [sunsetCexRecord, baseRecommendation]

/-- Counterexample to C6 as stated: the claim requires the reason to
embed all three raw metrics, but for an analysis that observed 9 social
mentions the persisted reason contains no "9" at all — the metrics
record drops the social-mention count before `processSunset` runs. -/
theorem processSunset_reason_omits_social_mentions :
    sunsetCexMetrics.recommendation = .sunset ∧
    (processSunset ⟨1, 0, [sunsetCexRecord]⟩ sunsetCexRecord
        sunsetCexMetrics false 2592000000).2.reason =
      "Low engagement: 0 transfers, 0 holders, score: 3/100" ∧
    includesStr "Low engagement: 0 transfers, 0 holders, score: 3/100"
      "9" = false := by
  rw [sunsetCexMetrics_eval]
  refine ⟨rfl, ?_, by decide⟩
  decide

/-- A JavaScript/JSON value: models the untyped result of `JSON.parse`
(the cast `as DeploymentMemory` in `loadMemory` performs no runtime
validation, so the parsed value flows through as-is). -/
inductive JsValue where
  | null
  | bool (b : Bool)
  | num (q : ℚ)
  | str (s : String)
  | arr (elems : List JsValue)
  | obj (fields : List (String × JsValue))

/-- The state of the flat file behind the ledger: absent, present but not
valid JSON (read or parse raises), or parsing to some JSON value. -/
inductive BackingStore where
  | missing
  | malformed (contents : String)
  | wellFormed (v : JsValue)

/-- `readFileSync` followed by `JSON.parse`: raises (modelled as
`Except.error`) unless the file exists and its contents parse. -/
def readAndParse : BackingStore → Except String JsValue
  | .missing => .error "ENOENT"
  | .malformed _ => .error "SyntaxError"
  | .wellFormed v => .ok v

/-- The fresh ledger `loadMemory` builds: version 1, records empty. -/
def emptyMemoryJs (now : ℤ) : JsValue :=
  .obj [("version", .num 1), ("lastUpdated", .num (now : ℚ)),
        ("deployments", .arr [])]

/-- `loadMemory` from `memory/deployments.ts`: a missing file
(`existsSync` false) short-circuits to the empty ledger; otherwise the
`try`/`catch` turns any read or parse error into the empty ledger, and a
successfully parsed value is returned unchanged. -/
def loadMemoryJs (store : BackingStore) (now : ℤ) : JsValue :=
  match store with
  | .missing => emptyMemoryJs now
  | _ =>
    match readAndParse store with
    | .ok v => v
    | .error _ => emptyMemoryJs now

/-- C9: loading a missing backing store or one whose contents fail to
parse yields the empty ledger (version 1, empty records), and loading is
total — for every store state it returns either the empty ledger or the
parsed value, never an error. -/
theorem loadMemory_tolerates_missing_or_corrupt :
    (∀ now : ℤ, loadMemoryJs .missing now = emptyMemoryJs now) ∧
    (∀ (contents : String) (now : ℤ),
      loadMemoryJs (.malformed contents) now = emptyMemoryJs now) ∧
    (∀ (store : BackingStore) (now : ℤ),
      loadMemoryJs store now = emptyMemoryJs now ∨
      ∃ v, readAndParse store = .ok v ∧ loadMemoryJs store now = v) := by
  refine ⟨fun _ => rfl, fun _ _ => rfl, ?_⟩
  intro store now
  cases store with
  | missing => exact .inl rfl
  | malformed contents => exact .inl rfl
  | wellFormed v => exact .inr ⟨v, rfl, rfl⟩

/-- Return shape of `getDeploymentStats`. -/
structure DeploymentStats where
  total : ℕ
  active : ℕ
  sunset : ℕ
  byChain : List (String × ℕ)
  deriving DecidableEq, Repr

/-- The per-chain counting loop of `getDeploymentStats`:
`byChain[d.chainId] = (byChain[d.chainId] || 0) + 1`. -/
def bumpChain : List (String × ℕ) → String → List (String × ℕ)
  | [], c => [(c, 1)]
  | (k, n) :: rest, c =>
    if k == c then (k, n + 1) :: rest else (k, n) :: bumpChain rest c

/-- `getDeploymentStats` from `memory/deployments.ts`: `active` and
`sunset` are counted from the legacy boolean `sunset` field via JS
truthiness (`!d.sunset` / `d.sunset`); `status` is not consulted. -/
def getDeploymentStats (memory : DeploymentMemory) : DeploymentStats :=
  { total := memory.deployments.length
    active := (memory.deployments.filter
      (fun d => !(decide (d.sunset = some true)))).length
    sunset := (memory.deployments.filter
      (fun d => decide (d.sunset = some true))).length
    byChain := memory.deployments.foldl
      (fun acc d => bumpChain acc d.chainId) [] }

/-- Return shape of `getSunsetStats`. -/
structure SunsetStats where
  total : ℕ
  thisWeek : ℕ
  thisMonth : ℕ
  deriving DecidableEq, Repr

/-- `getSunsetStats` from `sunset/automation.ts`: counts records with
`status === 'sunset'`, plus recency buckets on `timestamp`. -/
def getSunsetStats (memory : DeploymentMemory) (now : ℤ) : SunsetStats :=
  let sunsetDeployments := memory.deployments.filter
    (fun d => decide (d.status = some .sunset))
  let weekAgo := now - 7 * 24 * 60 * 60 * 1000
  let monthAgo := now - 30 * 24 * 60 * 60 * 1000
  { total := sunsetDeployments.length
    thisWeek := (sunsetDeployments.filter
      (fun d => decide (d.timestamp > weekAgo))).length
    thisMonth := (sunsetDeployments.filter
      (fun d => decide (d.timestamp > monthAgo))).length }

/-- If every element satisfies `p` or `q`, the two filters jointly count
every element at least once. -/
lemma length_le_filter_add {α : Type} (p q : α → Bool) :
    ∀ l : List α, (∀ r ∈ l, p r = true ∨ q r = true) →
      l.length ≤ (l.filter p).length + (l.filter q).length := by
  intro l
  induction l with
  | nil => intro _; simp
  | cons a t ih =>
    intro hall
    have iht := ih fun r hr => hall r (List.mem_cons_of_mem a hr)
    have ha := hall a (List.mem_cons_self a t)
    cases hp : p a <;> cases hq : q a <;>
      simp only [List.filter_cons, hp, hq, if_true, if_false,
        List.length_cons, Bool.false_eq_true, Bool.true_eq_false,
        false_or, or_false] at * <;> omega

/-- If additionally some element satisfies both `p` and `q`, the joint
count strictly exceeds the length. -/
lemma length_lt_filter_add {α : Type} (p q : α → Bool) (r₀ : α)
    (hp₀ : p r₀ = true) (hq₀ : q r₀ = true) :
    ∀ l : List α, (∀ r ∈ l, p r = true ∨ q r = true) → r₀ ∈ l →
      l.length < (l.filter p).length + (l.filter q).length := by
  intro l
  induction l with
  | nil => intro _ hmem; simp at hmem
  | cons a t ih =>
    intro hall hmem
    have iht := length_le_filter_add p q t
      fun r hr => hall r (List.mem_cons_of_mem a hr)
    rcases List.mem_cons.mp hmem with rfl | hm
    · simp only [List.filter_cons, hp₀, hq₀, if_true, List.length_cons]
      omega
    · have ihc := ih (fun r hr => hall r (List.mem_cons_of_mem a hr)) hm
      have ha := hall a (List.mem_cons_self a t)
      cases hp : p a <;> cases hq : q a <;>
        simp only [List.filter_cons, hp, hq, if_true, if_false,
          List.length_cons, Bool.false_eq_true, Bool.true_eq_false,
          false_or, or_false] at * <;> omega

/-- C10 (amended): `getDeploymentStats` decides "active" by the legacy
boolean `sunset` flag while `getSunsetStats` decides "sunset" by
`status === 'sunset'`; a record with `status = 'sunset'` and no legacy
flag (the state `processSunset` produces) is therefore reported active
by `getDeploymentStats`, and — provided no record carries the legacy
flag without also having `status = 'sunset'` — the reported active count
plus `getSunsetStats`' total strictly exceeds the number of records. -/
theorem stats_sunset_notions_inconsistent (memory : DeploymentMemory)
    (r : DeploymentRecord) (now : ℤ)
    (hmem : r ∈ memory.deployments)
    (hstatus : r.status = some .sunset)
    (hlegacy : r.sunset = none) :
    r ∈ memory.deployments.filter
      (fun d => !(decide (d.sunset = some true))) ∧
    ((∀ d ∈ memory.deployments,
        d.sunset = some true → d.status = some .sunset) →
      memory.deployments.length <
        (getDeploymentStats memory).active +
          (getSunsetStats memory now).total) := by
  constructor
  · exact List.mem_filter.mpr ⟨hmem, by simp [hlegacy]⟩
  · intro hnolegacy
    have key := length_lt_filter_add
      (fun d => !(decide (d.sunset = some true)))
      (fun d => decide (d.status = some DeployStatus.sunset)) r
      (by simp [hlegacy]) (by simp [hstatus])
      memory.deployments ?_ hmem
    · simpa [getDeploymentStats, getSunsetStats] using key
    · intro d hd
      by_cases hds : d.sunset = some true
      · exact .inr (by simp [hnolegacy d hd hds])
      · exact .inl (by simp [hds])

/-- Concrete record in the state `processSunset` produces:
`status = 'sunset'`, legacy flag absent. -/
def cexRecordA : DeploymentRecord :=
  { name := "a", address := "0xa", chainId := "base", timestamp := 0,
    reason := "r", status := some .sunset }

/-- Concrete record in the state the legacy `sunsetDeployment` produces:
legacy flag `true`, `status` absent. -/
def cexRecordB : DeploymentRecord :=
  { name := "b", address := "0xb", chainId := "base", timestamp := 0,
    reason := "r", sunset := some true }

/-- A ledger holding one record of each kind. -/
def cexMemory : DeploymentMemory := ⟨1, 0, [cexRecordA, cexRecordB]⟩

/-- Witness for C10 at a concrete input: in a one-record ledger holding
only the `processSunset`-style record, the record is reported active and
active + sunset-total = 2 > 1 record. -/
theorem stats_sunset_notions_inconsistent_witness :
    cexRecordA ∈ (DeploymentMemory.mk 1 0 [cexRecordA]).deployments.filter
      (fun d => !(decide (d.sunset = some true))) ∧
    (DeploymentMemory.mk 1 0 [cexRecordA]).deployments.length <
      (getDeploymentStats ⟨1, 0, [cexRecordA]⟩).active +
        (getSunsetStats ⟨1, 0, [cexRecordA]⟩ 0).total := by
  have h := stats_sunset_notions_inconsistent ⟨1, 0, [cexRecordA]⟩
    cexRecordA 0 (by simp) (by decide) (by decide)
  exact ⟨h.1, h.2 (by decide)⟩

/-- Counterexample to C10 as stated: `cexMemory` contains a record with
`status = 'sunset'` and no legacy flag, yet the reported active count
(1) plus the sunset total (1) equals the record count (2) and does not
exceed it, because the other record carries only the legacy flag and is
counted by neither filter's complement consistently. -/
theorem stats_double_count_not_universal :
    cexRecordA ∈ cexMemory.deployments ∧
    cexRecordA.status = some .sunset ∧
    cexRecordA.sunset = none ∧
    (getDeploymentStats cexMemory).active = 1 ∧
    (getSunsetStats cexMemory 0).total = 1 ∧
    cexMemory.deployments.length = 2 ∧
    ¬(cexMemory.deployments.length <
      (getDeploymentStats cexMemory).active +
        (getSunsetStats cexMemory 0).total) := by
  refine ⟨by simp [cexMemory], by decide, by decide, ?_, ?_, rfl, ?_⟩ <;>
    decide

end Moltchain
